import Mathlib

/-!
Verification of the picopayments protocol core against its specification.

The development shallowly embeds the two source files:
  * `picopayments/scripts.py`  — the script template engine
    (compile/decompile of the deposit and commit templates, sequence-value
    decoding, spend-witness construction);
  * `picopayments/channel/base.py` — the channel state engine
    (save/load snapshots, commit ordering, transfer validation, revocation).

Conventions of the embedding:
  * a byte string is a `List Nat` (each entry a byte value);
  * the hex-string boundary (`b2h`/`h2b`) is a bijection between hex text and
    bytes, so hex-encoded values are represented directly by the byte lists
    they encode;
  * Python exceptions become `Except` with an inductive error type whose
    constructors name the distinct raise sites;
  * the confirmation oracle (`control.get_quantity`) and the cryptographic
    primitives (hash160, ECDSA) are external collaborators and enter as
    function parameters.
-/

/-- Decidable equality for `Except`, used to evaluate concrete runs of the
embedded functions in witnesses. -/
instance {ε α : Type} [DecidableEq ε] [DecidableEq α] : DecidableEq (Except ε α)
  | .error a, .error b =>
    match decEq a b with
    | .isTrue h => .isTrue (h ▸ rfl)
    | .isFalse h => .isFalse (fun he => h (Except.error.inj he))
  | .error _, .ok _ => .isFalse (fun he => Except.noConfusion he)
  | .ok _, .error _ => .isFalse (fun he => Except.noConfusion he)
  | .ok a, .ok b =>
    match decEq a b with
    | .isTrue h => .isTrue (h ▸ rfl)
    | .isFalse h => .isFalse (fun he => h (Except.ok.inj he))

namespace Picopayments

/-! ## Byte-level primitives (pycoin interface) -/

/-- Little-endian byte interpretation: value of a byte list, least significant
byte first. -/
def leToNat : List Nat → Nat
  | [] => 0
  | b :: bs => b + 256 * leToNat bs

/-- Fuel-driven worker for `natToLEBytes`; the fuel only serves to make the
recursion structural (any fuel at least the value itself is enough, since the
byte count of a number never exceeds the number). -/
def natToLEBytesFuel : Nat → Nat → List Nat
  | 0, _ => []
  | fuel + 1, v => if v = 0 then [] else (v % 256) :: natToLEBytesFuel fuel (v / 256)

/-- Little-endian byte representation of a natural number (no sign padding);
`0` is represented by the empty list. -/
def natToLEBytes (v : Nat) : List Nat :=
  natToLEBytesFuel v v

theorem natToLEBytesFuel_zero (f : Nat) : natToLEBytesFuel f 0 = [] := by
  cases f <;> simp [natToLEBytesFuel]

theorem natToLEBytesFuel_congr :
    ∀ f₁ f₂ v : Nat, v ≤ f₁ → v ≤ f₂ → natToLEBytesFuel f₁ v = natToLEBytesFuel f₂ v := by
  intro f₁
  induction f₁ with
  | zero =>
    intro f₂ v h₁ _
    have hv : v = 0 := Nat.le_zero.mp h₁
    rw [hv, natToLEBytesFuel_zero, natToLEBytesFuel_zero]
  | succ f ih =>
    intro f₂ v h₁ h₂
    match f₂, v with
    | f₂, 0 => rw [natToLEBytesFuel_zero, natToLEBytesFuel_zero]
    | 0, v + 1 => omega
    | g + 1, v + 1 =>
      simp only [natToLEBytesFuel, if_neg (Nat.succ_ne_zero v)]
      exact congrArg _ (ih g ((v + 1) / 256)
        (by have := Nat.div_lt_self (Nat.succ_pos v) (by norm_num : 1 < 256); omega)
        (by have := Nat.div_lt_self (Nat.succ_pos v) (by norm_num : 1 < 256); omega))

/-- Unfolding equation for `natToLEBytes`. -/
theorem natToLEBytes_eq (v : Nat) :
    natToLEBytes v = if v = 0 then [] else (v % 256) :: natToLEBytes (v / 256) := by
  cases v with
  | zero => simp [natToLEBytes, natToLEBytesFuel]
  | succ n =>
    simp only [natToLEBytes, natToLEBytesFuel, if_neg (Nat.succ_ne_zero n)]
    have hlt : (n + 1) / 256 < n + 1 := Nat.div_lt_self (Nat.succ_pos n) (by norm_num)
    exact congrArg _ (natToLEBytesFuel_congr n ((n + 1) / 256) ((n + 1) / 256)
      (by omega) (by omega))

/-- Modelled from the spec: pycoin `tools.int_from_script_bytes`, the decoder
used by `parse_sequence_value` for a direct data push — per the spec, the
pushed bytes are "interpreted as a little-endian integer".  (pycoin is an
external dependency whose source is not part of this repository.) -/
def int_from_script_bytes (bs : List Nat) : Nat :=
  leToNat bs

/-- Modelled from the spec: pycoin's minimal script-number encoding of a
positive integer — little-endian bytes, padded by one zero byte when the top
bit of the most significant byte is set (so that the value reads back as
positive).  Used when the compiler assembles an integer token larger than 16. -/
def int_to_script_bytes (v : Nat) : List Nat :=
  if 0x80 ≤ (natToLEBytes v).getLastD 0 then natToLEBytes v ++ [0] else natToLEBytes v

/-- Modelled from the spec: assembling a raw data token pushes its bytes —
for data of 1 to 75 bytes the push is the length byte followed by the data
(the only case this repository's templates and witnesses produce). -/
def bin_script (data : List Nat) : List Nat :=
  data.length :: data

/-- Modelled from the spec: pycoin `tools.get_opcode` — reads one word of a
script: the opcode byte, the data it pushes (empty for non-push opcodes) and
the remaining script.  Opcodes 1–75 push that many following bytes; opcodes
76/77/78 (PUSHDATA1/2/4) read a 1/2/4-byte little-endian length first; any
other opcode pushes nothing.  `none` corresponds to the exception Python
raises when reading past the end of the script. -/
def get_opcode : List Nat → Option (Nat × List Nat × List Nat)
  | [] => none
  | opcode :: rest =>
    if opcode ≤ 78 then
      if opcode < 76 then
        some (opcode, rest.take opcode, rest.drop opcode)
      else
        let n := if opcode = 76 then 1 else if opcode = 77 then 2 else 4
        if rest.length < n then none
        else
          let size := leToNat (rest.take n)
          let r2 := rest.drop n
          some (opcode, r2.take size, r2.drop size)
    else
      some (opcode, [], rest)

/-- Errors raised by the script template engine (`ValueError` raise sites in
`scripts.py`, distinguished by site as the spec's error kinds are). -/
inductive ScriptErr where
  /-- `get_word`: the requested word index is beyond the end of the script
  (`raise ValueError(index)`), or the opcode stream itself is truncated. -/
  | wordOutOfRange
  /-- `parse_sequence_value`: the word's opcode is not a sequence-value
  encoding (`raise ValueError("Invalid expire time: ...")`). -/
  | invalidExpireTime
  /-- `parse_sequence_value`: the decoded value exceeds `MAX_SEQUENCE`
  (`raise ValueError("Max expire time exceeded: ...")`). -/
  | maxExpireTimeExceeded
deriving DecidableEq, Repr

/-- Loop body of `get_word` in `scripts.py`: walk the opcode stream from the
front; at index 0 return the current word, otherwise continue on the
remaining script.  Running out of script before reaching the index is the
`raise ValueError(index)` case. -/
def get_word_loop : List Nat → Nat → Option (Nat × List Nat)
  | s, i =>
    match get_opcode s with
    | none => none
    | some (op, data, rest) =>
      match i with
      | 0 => some (op, data)
      | i' + 1 => get_word_loop rest i'

/-- `get_word(script, index)` from `scripts.py`: the opcode and pushed data of
the word at the given positional index. -/
def get_word (script : List Nat) (index : Nat) : Except ScriptErr (Nat × List Nat) :=
  match get_word_loop script index with
  | some w => .ok w
  | none => .error .wordOutOfRange

/-- `MAX_SEQUENCE = 0x0000FFFF` from `scripts.py`. -/
def MAX_SEQUENCE : Nat := 0x0000FFFF

/-- `parse_sequence_value(opcode, data, ...)` from `scripts.py`: opcode 0 maps
to 0; an opcode strictly between 0 and 76 (a direct push) decodes its data
bytes as a little-endian integer; an opcode strictly between 80 and 97
(OP_1 … OP_16) maps to `opcode - 80`; anything else is a decode error; and
any decoded value above `MAX_SEQUENCE` is rejected. -/
def parse_sequence_value (opcode : Nat) (data : List Nat) : Except ScriptErr Nat := do
  let value ←
    if opcode = 0 then
      pure 0
    else if 0 < opcode ∧ opcode < 76 then
      pure (int_from_script_bytes data)
    else if 80 < opcode ∧ opcode < 97 then
      pure (opcode - 80)
    else
      throw ScriptErr.invalidExpireTime
  if value > MAX_SEQUENCE then
    throw ScriptErr.maxExpireTimeExceeded
  else
    pure value

/-! ## Script templates (`DEPOSIT_SCRIPT`, `COMMIT_SCRIPT`) -/

/-- Bitcoin opcode OP_IF. -/
def OP_IF : Nat := 99
/-- Bitcoin opcode OP_ELSE. -/
def OP_ELSE : Nat := 103
/-- Bitcoin opcode OP_ENDIF. -/
def OP_ENDIF : Nat := 104
/-- Bitcoin opcode OP_2 (small-integer literal 2). -/
def OP_2 : Nat := 82
/-- Bitcoin opcode OP_CHECKMULTISIG. -/
def OP_CHECKMULTISIG : Nat := 174
/-- Bitcoin opcode OP_HASH160. -/
def OP_HASH160 : Nat := 169
/-- Bitcoin opcode OP_EQUALVERIFY. -/
def OP_EQUALVERIFY : Nat := 136
/-- Bitcoin opcode OP_CHECKSIG. -/
def OP_CHECKSIG : Nat := 172
/-- Bitcoin opcode OP_NOP3 (CHECKSEQUENCEVERIFY slot). -/
def OP_NOP3 : Nat := 178
/-- Bitcoin opcode OP_DROP. -/
def OP_DROP : Nat := 117

/-- Modelled from the spec: how pycoin `tools.compile` assembles the decimal
integer token produced by `str(expire_time)` / `str(delay_time)`: `0` is the
zero opcode OP_0, `1` … `16` are the dedicated small-integer opcodes
OP_1 … OP_16 (opcodes 81–96), and any larger value is a push of its minimal
little-endian script-number bytes. -/
def encode_sequence_token (v : Nat) : List Nat :=
  if v = 0 then [0]
  else if v ≤ 16 then [80 + v]
  else bin_script (int_to_script_bytes v)

/-- `compile_deposit_script` from `scripts.py`: substitute the parameters into
the `DEPOSIT_SCRIPT` template

    OP_IF
        2 {payer_pubkey} {payee_pubkey} 2 OP_CHECKMULTISIG
    OP_ELSE
        OP_IF
            OP_HASH160 {spend_secret_hash} OP_EQUALVERIFY
            {payer_pubkey} OP_CHECKSIG
        OP_ELSE
            {expire_time} OP_NOP3 OP_DROP
            {payer_pubkey} OP_CHECKSIG
        OP_ENDIF
    OP_ENDIF

and assemble it to opcode bytes (each pubkey / hash parameter assembles to a
push of its bytes). -/
def compile_deposit_script (payer_pubkey payee_pubkey spend_secret_hash : List Nat)
    (expire_time : Nat) : List Nat :=
  [OP_IF, OP_2] ++ bin_script payer_pubkey ++ bin_script payee_pubkey ++
    [OP_2, OP_CHECKMULTISIG, OP_ELSE, OP_IF, OP_HASH160] ++
    bin_script spend_secret_hash ++ [OP_EQUALVERIFY] ++
    bin_script payer_pubkey ++ [OP_CHECKSIG, OP_ELSE] ++
    encode_sequence_token expire_time ++ [OP_NOP3, OP_DROP] ++
    bin_script payer_pubkey ++ [OP_CHECKSIG, OP_ENDIF, OP_ENDIF]

/-- `compile_commit_script` from `scripts.py`: substitute the parameters into
the `COMMIT_SCRIPT` template

    OP_IF
        {delay_time} OP_NOP3 OP_DROP
        OP_HASH160 {spend_secret_hash} OP_EQUALVERIFY
        {payee_pubkey} OP_CHECKSIG
    OP_ELSE
        OP_HASH160 {revoke_secret_hash} OP_EQUALVERIFY
        {payer_pubkey} OP_CHECKSIG
    OP_ENDIF

and assemble it to opcode bytes. -/
def compile_commit_script
    (payer_pubkey payee_pubkey spend_secret_hash revoke_secret_hash : List Nat)
    (delay_time : Nat) : List Nat :=
  [OP_IF] ++ encode_sequence_token delay_time ++ [OP_NOP3, OP_DROP, OP_HASH160] ++
    bin_script spend_secret_hash ++ [OP_EQUALVERIFY] ++
    bin_script payee_pubkey ++ [OP_CHECKSIG, OP_ELSE, OP_HASH160] ++
    bin_script revoke_secret_hash ++ [OP_EQUALVERIFY] ++
    bin_script payer_pubkey ++ [OP_CHECKSIG, OP_ENDIF]

/-! ## Positional field extraction (`scripts.py`) -/

/-- `get_commit_payer_pubkey(script)`: the data of word 13. -/
def get_commit_payer_pubkey (script : List Nat) : Except ScriptErr (List Nat) :=
  (get_word script 13).map (fun w => w.2)

/-- `get_commit_payee_pubkey(script)`: the data of word 7. -/
def get_commit_payee_pubkey (script : List Nat) : Except ScriptErr (List Nat) :=
  (get_word script 7).map (fun w => w.2)

/-- `get_commit_delay_time(script)`: the sequence value decoded from word 1. -/
def get_commit_delay_time (script : List Nat) : Except ScriptErr Nat := do
  let w ← get_word script 1
  parse_sequence_value w.1 w.2

/-- `get_commit_spend_secret_hash(script)`: the data of word 5. -/
def get_commit_spend_secret_hash (script : List Nat) : Except ScriptErr (List Nat) :=
  (get_word script 5).map (fun w => w.2)

/-- `get_commit_revoke_secret_hash(script)`: the data of word 11. -/
def get_commit_revoke_secret_hash (script : List Nat) : Except ScriptErr (List Nat) :=
  (get_word script 11).map (fun w => w.2)

/-- `get_deposit_payer_pubkey(script)`: the data of word 2. -/
def get_deposit_payer_pubkey (script : List Nat) : Except ScriptErr (List Nat) :=
  (get_word script 2).map (fun w => w.2)

/-- `get_deposit_payee_pubkey(script)`: the data of word 3. -/
def get_deposit_payee_pubkey (script : List Nat) : Except ScriptErr (List Nat) :=
  (get_word script 3).map (fun w => w.2)

/-- `get_deposit_expire_time(script)`: the sequence value decoded from
word 14. -/
def get_deposit_expire_time (script : List Nat) : Except ScriptErr Nat := do
  let w ← get_word script 14
  parse_sequence_value w.1 w.2

/-- `get_deposit_spend_secret_hash(script)`: the data of word 9. -/
def get_deposit_spend_secret_hash (script : List Nat) : Except ScriptErr (List Nat) :=
  (get_word script 9).map (fun w => w.2)

/-! ## Round-trip lemmas for the byte encodings -/

theorem natToLEBytes_zero : natToLEBytes 0 = [] := rfl

theorem leToNat_natToLEBytes : ∀ v : Nat, leToNat (natToLEBytes v) = v := by
  suffices h : ∀ f v : Nat, v ≤ f → leToNat (natToLEBytes v) = v by
    intro v; exact h v v le_rfl
  intro f
  induction f with
  | zero =>
    intro v hv
    have : v = 0 := Nat.le_zero.mp hv
    rw [this, natToLEBytes_zero]; rfl
  | succ f ih =>
    intro v hv
    by_cases h0 : v = 0
    · rw [h0, natToLEBytes_zero]; rfl
    · rw [natToLEBytes_eq, if_neg h0]
      have hdiv : v / 256 ≤ f := by omega
      simp only [leToNat, ih (v / 256) hdiv]
      omega

theorem leToNat_append_zero : ∀ bs : List Nat, leToNat (bs ++ [0]) = leToNat bs
  | [] => rfl
  | b :: bs => by
    have ih := leToNat_append_zero bs
    show leToNat (b :: (bs ++ [0])) = leToNat (b :: bs)
    unfold leToNat
    rw [ih]

/-- Reading back the minimal script-number bytes recovers the value. -/
theorem int_from_to_script_bytes (v : Nat) :
    int_from_script_bytes (int_to_script_bytes v) = v := by
  unfold int_from_script_bytes int_to_script_bytes
  split
  · rw [leToNat_append_zero, leToNat_natToLEBytes]
  · rw [leToNat_natToLEBytes]

theorem natToLEBytes_ne_nil (v : Nat) (hv : v ≠ 0) : natToLEBytes v ≠ [] := by
  rw [natToLEBytes_eq, if_neg hv]
  exact List.cons_ne_nil _ _

theorem int_to_script_bytes_ne_nil (v : Nat) (hv : v ≠ 0) : int_to_script_bytes v ≠ [] := by
  unfold int_to_script_bytes
  split
  · exact fun h => absurd (List.append_eq_nil.mp h).2 (by simp)
  · exact natToLEBytes_ne_nil v hv

theorem natToLEBytes_length_le (v : Nat) (hv : v ≤ 0xFFFF) :
    (natToLEBytes v).length ≤ 2 := by
  rw [natToLEBytes_eq]
  split
  · simp
  · rw [natToLEBytes_eq]
    split
    · simp
    · have h2 : v / 256 / 256 = 0 := by omega
      rw [natToLEBytes_eq, h2, if_pos rfl]
      simp

theorem int_to_script_bytes_length_le (v : Nat) (hv : v ≤ 0xFFFF) :
    (int_to_script_bytes v).length ≤ 75 := by
  unfold int_to_script_bytes
  have := natToLEBytes_length_le v hv
  split <;> simp <;> omega

/-! ## Word-stepping lemmas for `get_word_loop` -/

theorem get_opcode_plain (op : Nat) (rest : List Nat) (h : 78 < op) :
    get_opcode (op :: rest) = some (op, [], rest) := by
  simp only [get_opcode]
  rw [if_neg (by omega)]

theorem get_opcode_zero_op (rest : List Nat) :
    get_opcode (0 :: rest) = some (0, [], rest) := by
  simp [get_opcode]

theorem get_opcode_push (d rest : List Nat) (_hne : d ≠ []) (h75 : d.length ≤ 75) :
    get_opcode (bin_script d ++ rest) = some (d.length, d, rest) := by
  have hshape : bin_script d ++ rest = d.length :: (d ++ rest) := by
    simp [bin_script]
  rw [hshape]
  simp only [get_opcode]
  rw [if_pos (by omega), if_pos (by omega)]
  rw [List.take_left, List.drop_left]

theorem get_word_loop_plain (op : Nat) (rest : List Nat) (i : Nat) (h : 78 < op ∨ op = 0) :
    get_word_loop (op :: rest) i =
      if i = 0 then some (op, []) else get_word_loop rest (i - 1) := by
  have hop : get_opcode (op :: rest) = some (op, [], rest) := by
    rcases h with h | h
    · exact get_opcode_plain op rest h
    · rw [h]; exact get_opcode_zero_op rest
  rw [get_word_loop.eq_def]
  dsimp only
  rw [hop]
  cases i <;> simp

theorem get_word_loop_push (d rest : List Nat) (i : Nat) (hne : d ≠ []) (h75 : d.length ≤ 75) :
    get_word_loop (bin_script d ++ rest) i =
      if i = 0 then some (d.length, d) else get_word_loop rest (i - 1) := by
  have hop := get_opcode_push d rest hne h75
  rw [get_word_loop.eq_def]
  dsimp only
  rw [hop]
  cases i <;> simp

/-- The word a compiled sequence-value token occupies in the opcode stream. -/
def seq_word (v : Nat) : Nat × List Nat :=
  if v = 0 then (0, [])
  else if v ≤ 16 then (80 + v, [])
  else ((int_to_script_bytes v).length, int_to_script_bytes v)

theorem get_word_loop_seq (v : Nat) (rest : List Nat) (i : Nat) (hv : v ≤ MAX_SEQUENCE) :
    get_word_loop (encode_sequence_token v ++ rest) i =
      if i = 0 then some (seq_word v) else get_word_loop rest (i - 1) := by
  unfold encode_sequence_token seq_word
  split
  · rw [List.cons_append, List.nil_append,
      get_word_loop_plain 0 rest i (Or.inr rfl)]
  · split
    · rw [List.cons_append, List.nil_append,
        get_word_loop_plain _ rest i (Or.inl (by omega))]
    · have hne : int_to_script_bytes v ≠ [] := int_to_script_bytes_ne_nil v (by omega)
      have h75 : (int_to_script_bytes v).length ≤ 75 :=
        int_to_script_bytes_length_le v (by unfold MAX_SEQUENCE at hv; omega)
      rw [get_word_loop_push _ rest i hne h75]

theorem parse_seq_word (v : Nat) (hv : v ≤ MAX_SEQUENCE) :
    parse_sequence_value (seq_word v).1 (seq_word v).2 = .ok v := by
  have hv' : v ≤ 65535 := hv
  unfold seq_word parse_sequence_value
  split
  · rename_i h0
    subst h0
    simp [MAX_SEQUENCE, bind, Except.bind, pure, Except.pure]
  · split
    · rename_i h0 h16
      have h1 : ¬(80 + v = 0) := by omega
      have h2 : ¬(0 < 80 + v ∧ 80 + v < 76) := by omega
      have h3 : 80 < 80 + v ∧ 80 + v < 97 := by omega
      simp only [h1, if_false, h2, if_false, h3, if_true]
      have h4 : ¬(80 + v - 80 > MAX_SEQUENCE) := by simp only [MAX_SEQUENCE]; omega
      simp [bind, Except.bind, pure, Except.pure, h4]
      omega
    · rename_i h0 h16
      have hne : int_to_script_bytes v ≠ [] := int_to_script_bytes_ne_nil v (by omega)
      have hlen1 : ¬((int_to_script_bytes v).length = 0) := by
        intro h; exact hne (List.length_eq_zero.mp h)
      have h2 : 0 < (int_to_script_bytes v).length ∧ (int_to_script_bytes v).length < 76 := by
        have := int_to_script_bytes_length_le v (by simp only [MAX_SEQUENCE] at hv; omega)
        omega
      simp only [hlen1, if_false, h2, if_true]
      rw [int_from_to_script_bytes]
      have h4 : ¬(v > MAX_SEQUENCE) := by simp only [MAX_SEQUENCE]; omega
      simp [bind, Except.bind, pure, Except.pure, h4]

/-! ## Claim C1: compile/decompile round trip -/

/-- C1: for every valid parameter set (33-byte public keys, 20-byte secret
hashes, and a 16-bit expire time for the deposit template / revoke-secret
hash and 16-bit delay time for the commit template), compiling the script
and then extracting each field by its fixed positional offset returns
exactly the original parameters — `decompile(compile(params)) == params`
for both templates. -/
theorem C1_compile_decompile_round_trip
    (payer_pubkey payee_pubkey spend_secret_hash revoke_secret_hash : List Nat)
    (expire_time delay_time : Nat)
    (hp : payer_pubkey.length = 33) (hq : payee_pubkey.length = 33)
    (hs : spend_secret_hash.length = 20) (hr : revoke_secret_hash.length = 20)
    (he : expire_time ≤ MAX_SEQUENCE) (hd : delay_time ≤ MAX_SEQUENCE) :
    (get_deposit_payer_pubkey
        (compile_deposit_script payer_pubkey payee_pubkey spend_secret_hash expire_time) =
        .ok payer_pubkey
      ∧ get_deposit_payee_pubkey
        (compile_deposit_script payer_pubkey payee_pubkey spend_secret_hash expire_time) =
        .ok payee_pubkey
      ∧ get_deposit_spend_secret_hash
        (compile_deposit_script payer_pubkey payee_pubkey spend_secret_hash expire_time) =
        .ok spend_secret_hash
      ∧ get_deposit_expire_time
        (compile_deposit_script payer_pubkey payee_pubkey spend_secret_hash expire_time) =
        .ok expire_time)
    ∧ (get_commit_payer_pubkey
        (compile_commit_script payer_pubkey payee_pubkey spend_secret_hash
          revoke_secret_hash delay_time) = .ok payer_pubkey
      ∧ get_commit_payee_pubkey
        (compile_commit_script payer_pubkey payee_pubkey spend_secret_hash
          revoke_secret_hash delay_time) = .ok payee_pubkey
      ∧ get_commit_spend_secret_hash
        (compile_commit_script payer_pubkey payee_pubkey spend_secret_hash
          revoke_secret_hash delay_time) = .ok spend_secret_hash
      ∧ get_commit_revoke_secret_hash
        (compile_commit_script payer_pubkey payee_pubkey spend_secret_hash
          revoke_secret_hash delay_time) = .ok revoke_secret_hash
      ∧ get_commit_delay_time
        (compile_commit_script payer_pubkey payee_pubkey spend_secret_hash
          revoke_secret_hash delay_time) = .ok delay_time) := by
  have hpne : payer_pubkey ≠ [] := by intro h; rw [h] at hp; simp at hp
  have hqne : payee_pubkey ≠ [] := by intro h; rw [h] at hq; simp at hq
  have hsne : spend_secret_hash ≠ [] := by intro h; rw [h] at hs; simp at hs
  have hrne : revoke_secret_hash ≠ [] := by intro h; rw [h] at hr; simp at hr
  have hp75 : payer_pubkey.length ≤ 75 := by omega
  have hq75 : payee_pubkey.length ≤ 75 := by omega
  have hs75 : spend_secret_hash.length ≤ 75 := by omega
  have hr75 : revoke_secret_hash.length ≤ 75 := by omega
  refine ⟨⟨?_, ?_, ?_, ?_⟩, ?_, ?_, ?_, ?_, ?_⟩ <;>
  simp [compile_deposit_script, compile_commit_script,
    get_deposit_payer_pubkey, get_deposit_payee_pubkey, get_deposit_spend_secret_hash,
    get_deposit_expire_time, get_commit_payer_pubkey, get_commit_payee_pubkey,
    get_commit_spend_secret_hash, get_commit_revoke_secret_hash, get_commit_delay_time,
    get_word, OP_IF, OP_2, OP_CHECKMULTISIG, OP_ELSE, OP_HASH160, OP_EQUALVERIFY,
    OP_CHECKSIG, OP_NOP3, OP_DROP, OP_ENDIF, Except.map, bind, Except.bind,
    get_word_loop_plain, get_word_loop_push, get_word_loop_seq, parse_seq_word,
    hpne, hqne, hsne, hrne, hp75, hq75, hs75, hr75, he, hd]

/-- Witness for C1 at a concrete valid parameter set. -/
theorem C1_compile_decompile_round_trip_witness :
    get_deposit_payer_pubkey
      (compile_deposit_script (List.replicate 33 0xAA) (List.replicate 33 0xBB)
        (List.replicate 20 0x11) 300) = .ok (List.replicate 33 0xAA)
    ∧ get_deposit_expire_time
      (compile_deposit_script (List.replicate 33 0xAA) (List.replicate 33 0xBB)
        (List.replicate 20 0x11) 300) = .ok 300
    ∧ get_commit_revoke_secret_hash
      (compile_commit_script (List.replicate 33 0xAA) (List.replicate 33 0xBB)
        (List.replicate 20 0x11) (List.replicate 20 0x22) 65535) =
      .ok (List.replicate 20 0x22)
    ∧ get_commit_delay_time
      (compile_commit_script (List.replicate 33 0xAA) (List.replicate 33 0xBB)
        (List.replicate 20 0x11) (List.replicate 20 0x22) 65535) = .ok 65535 := by
  have h := C1_compile_decompile_round_trip (List.replicate 33 0xAA) (List.replicate 33 0xBB)
    (List.replicate 20 0x11) (List.replicate 20 0x22) 300 65535
    (by decide) (by decide) (by decide) (by decide) (by decide) (by decide)
  exact ⟨h.1.1, h.1.2.2.2, h.2.2.2.2.1, h.2.2.2.2.2⟩

/-! ## Claim C3: sequence-value decoding -/

/-- C3 counterexample: the claim speaks of "eleven dedicated small-integer
opcodes", but sixteen opcodes above the direct-push range (OP_1 … OP_16,
opcodes 81–96) decode successfully, so the set of dedicated small-integer
opcodes does not have eleven elements. -/
theorem C3_eleven_opcodes_counterexample :
    ((List.range 256).filter
        (fun op => decide (76 ≤ op) && (parse_sequence_value op []).isOk)).length = 16
    ∧ ((List.range 256).filter
        (fun op => decide (76 ≤ op) && (parse_sequence_value op []).isOk)).length ≠ 11 := by
  decide

/-- C3 (amended): for every (opcode, data) pair, opcode 0 returns 0; a direct
data-push opcode (1–75) returns the little-endian integer of its pushed
bytes; each of the sixteen dedicated small-integer opcodes (81–96) returns
the corresponding literal value in 1–16; every other opcode raises a decode
error; and every decoded value strictly greater than 0xFFFF raises an
out-of-range error. -/
theorem C3_parse_sequence_value_amended (op : Nat) (data : List Nat) :
    (op = 0 → parse_sequence_value op data = .ok 0)
    ∧ (0 < op → op < 76 → int_from_script_bytes data ≤ MAX_SEQUENCE →
        parse_sequence_value op data = .ok (int_from_script_bytes data))
    ∧ (80 < op → op < 97 →
        parse_sequence_value op data = .ok (op - 80) ∧ 1 ≤ op - 80 ∧ op - 80 ≤ 16)
    ∧ (op ≠ 0 → ¬(0 < op ∧ op < 76) → ¬(80 < op ∧ op < 97) →
        parse_sequence_value op data = .error .invalidExpireTime)
    ∧ (0 < op → op < 76 → MAX_SEQUENCE < int_from_script_bytes data →
        parse_sequence_value op data = .error .maxExpireTimeExceeded)
    ∧ ((List.range 256).filter (fun o => decide (80 < o) && decide (o < 97))).length = 16 := by
  refine ⟨?_, ?_, ?_, ?_, ?_, by decide⟩
  · intro h0
    subst h0
    simp [parse_sequence_value, MAX_SEQUENCE, bind, Except.bind, pure, Except.pure]
  · intro h1 h2 h3
    unfold parse_sequence_value
    rw [if_neg (by omega), if_pos (by exact ⟨h1, h2⟩)]
    simp [bind, Except.bind, pure, Except.pure, Nat.not_lt.mpr h3]
  · intro h1 h2
    unfold parse_sequence_value
    rw [if_neg (by omega), if_neg (by omega), if_pos (by exact ⟨h1, h2⟩)]
    have h4 : ¬(op - 80 > MAX_SEQUENCE) := by simp only [MAX_SEQUENCE]; omega
    refine ⟨by simp [bind, Except.bind, pure, Except.pure, h4], by omega, by omega⟩
  · intro h1 h2 h3
    unfold parse_sequence_value
    rw [if_neg h1, if_neg h2, if_neg h3]
    simp [bind, Except.bind, throw, throwThe, MonadExceptOf.throw]
  · intro h1 h2 h3
    unfold parse_sequence_value
    rw [if_neg (by omega), if_pos (by exact ⟨h1, h2⟩)]
    simp [bind, Except.bind, pure, Except.pure, h3, throw, throwThe, MonadExceptOf.throw]

/-- Witness for C3 at concrete opcodes: the zero opcode, the highest
small-integer opcode, a pushed two-byte 0xFFFF (accepted) and a pushed
three-byte 0x10000 (rejected), and a non-decodable opcode. -/
theorem C3_parse_sequence_value_amended_witness :
    parse_sequence_value 0 [] = .ok 0
    ∧ parse_sequence_value 96 [] = .ok 16
    ∧ parse_sequence_value 2 [255, 255] = .ok 65535
    ∧ parse_sequence_value 3 [0, 0, 1] = .error .maxExpireTimeExceeded
    ∧ parse_sequence_value 79 [] = .error .invalidExpireTime := by
  refine ⟨(C3_parse_sequence_value_amended 0 []).1 rfl, ?_, ?_, ?_, ?_⟩
  · have h := ((C3_parse_sequence_value_amended 96 []).2.2.1 (by decide) (by decide)).1
    simpa using h
  · have h := (C3_parse_sequence_value_amended 2 [255, 255]).2.1
      (by decide) (by decide) (by decide)
    simpa [int_from_script_bytes, leToNat] using h
  · exact (C3_parse_sequence_value_amended 3 [0, 0, 1]).2.2.2.2.1
      (by decide) (by decide) (by decide)
  · exact (C3_parse_sequence_value_amended 79 []).2.2.2.1
      (by decide) (by decide) (by decide)

/-! ## Channel state engine (`channel/base.py`)

The confirmation oracle `control.get_quantity(rawtx)` is an external
collaborator; it enters every state operation as a parameter
`q : Nat → Nat` mapping a transaction (represented by an opaque
identifier) to the quantity its relevant output carries.  Likewise
`util.hash160hex` enters `revoke` as a parameter
`h160 : List Nat → List Nat`. -/

/-- One record of `commits_active` / `commits_revoked`:
the dict with keys `rawtx`, `script`, `revoke_secret` (the revoke secret
is absent until revocation). -/
structure CommitEntry where
  rawtx : Nat
  script : List Nat
  revoke_secret : Option (List Nat)
deriving DecidableEq, Repr

/-- The persistent fields of the `Base` channel class — exactly the keys the
`save`/`load` snapshot carries. -/
structure Channel where
  payer_wif : Option (List Nat)
  payee_wif : Option (List Nat)
  spend_secret : Option (List Nat)
  deposit_script_hex : Option (List Nat)
  deposit_rawtx : Option Nat
  timeout_rawtx : Option Nat
  change_rawtx : Option Nat
  commits_requested : List (List Nat)
  commits_active : List CommitEntry
  commits_revoked : List CommitEntry
deriving DecidableEq, Repr

/-- The ordering `_order_active` sorts by: the quantity the oracle reports
for the entry's transaction (`sort_func`). -/
def qle (q : Nat → Nat) (a b : CommitEntry) : Prop :=
  q a.rawtx ≤ q b.rawtx

instance (q : Nat → Nat) : DecidableRel (qle q) :=
  fun _ _ => Nat.decLe _ _

instance (q : Nat → Nat) : IsTotal CommitEntry (qle q) :=
  ⟨fun _ _ => Nat.le_total _ _⟩

instance (q : Nat → Nat) : IsTrans CommitEntry (qle q) :=
  ⟨fun _ _ _ => Nat.le_trans⟩

/-- `_order_active` from `base.py`: stable in-place sort of `commits_active`,
ascending by the oracle quantity of each entry's transaction.  (Python's
`list.sort(key=...)` is a stable sort by key; every stable ascending sort by
key computes the same list, so it is modelled by insertion sort.) -/
def _order_active (q : Nat → Nat) (ch : Channel) : Channel :=
  { ch with commits_active := ch.commits_active.insertionSort (qle q) }

/-- `save()` from `base.py`: re-sort `commits_active`, then deep-copy and
return all persistent fields.  Since the sort mutates `self`, the model
returns both the snapshot and the post-call channel state (which coincide
field-for-field). -/
def save (q : Nat → Nat) (ch : Channel) : Channel × Channel :=
  (_order_active q ch, _order_active q ch)

/-- `load(data)` from `base.py`: deep-copy the snapshot into all internal
fields, then re-sort `commits_active`.  Every field is overwritten, so the
prior state does not appear. -/
def load (q : Nat → Nat) (data : Channel) : Channel :=
  _order_active q data

/-- `clear()` from `base.py`: the empty initial state. -/
def clear : Channel :=
  { payer_wif := none, payee_wif := none, spend_secret := none,
    deposit_script_hex := none, deposit_rawtx := none, timeout_rawtx := none,
    change_rawtx := none, commits_requested := [], commits_active := [],
    commits_revoked := [] }

/-- `set_spend_secret(secret)` from `base.py`. -/
def set_spend_secret (ch : Channel) (secret : List Nat) : Channel :=
  { ch with spend_secret := some secret }

/-- `get_transferred_amount()` from `base.py`: 0 when no active commitments
exist; otherwise sort and return the oracle quantity of the last (highest)
active commitment.  The sort mutates `self`, so the post-call state is
returned alongside the value. -/
def get_transferred_amount (q : Nat → Nat) (ch : Channel) : Nat × Channel :=
  if ch.commits_active = [] then (0, ch)
  else
    match (_order_active q ch).commits_active.getLast? with
    | some commit => (q commit.rawtx, _order_active q ch)
    | none => (0, _order_active q ch)

/-- Errors raised by the channel state engine, by raise site. -/
inductive ChannelErr where
  /-- `_validate_transfer_quantity`: `ValueError` with message "Amount not
  greater transferred" — the spec's InvalidTransferQuantity kind. -/
  | invalidTransferQuantity
  /-- `_validate_transfer_quantity`, quantity-above-total branch: the code
  executes `msg.fromat(quantity, total)` — a misspelling of `format` — so
  Python raises `AttributeError` before the intended `ValueError` is built. -/
  | attributeErrorFromat
  /-- a failed `assert` (e.g. `deposit_rawtx` absent in
  `get_deposit_total`). -/
  | assertionError
deriving DecidableEq, Repr

/-- `get_deposit_total()` from `base.py`: asserts the deposit transaction is
present, then asks the oracle for its quantity. -/
def get_deposit_total (q : Nat → Nat) (ch : Channel) : Except ChannelErr Nat :=
  match ch.deposit_rawtx with
  | none => .error .assertionError
  | some tx => .ok (q tx)

/-- `_validate_transfer_quantity(quantity)` from `base.py`: rejects
`quantity <= transferred`; then, on `quantity > total`, the source line
`raise ValueError(msg.fromat(quantity, total))` misspells `format`, so the
attribute lookup raises `AttributeError` instead of the intended
`ValueError`.  Returns the post-call state (the transferred-amount lookup
re-sorts `commits_active`). -/
def _validate_transfer_quantity (q : Nat → Nat) (ch : Channel) (quantity : Int) :
    Except ChannelErr Channel :=
  let transferred := (get_transferred_amount q ch).1
  let ch2 := (get_transferred_amount q ch).2
  if quantity ≤ (transferred : Int) then
    .error .invalidTransferQuantity
  else
    match get_deposit_total q ch2 with
    | .error e => .error e
    | .ok total =>
      if quantity > (total : Int) then
        .error .attributeErrorFromat
      else
        .ok ch2

/-- Loop body of `revoke` in `base.py`: scan the active commitments in order
for the first whose script's embedded revoke-secret hash equals the given
hash; a `ScriptErr` from the extraction propagates out of the loop. -/
def revoke_scan (secret_hash : List Nat) :
    List CommitEntry → Except ScriptErr (Option CommitEntry)
  | [] => .ok none
  | c :: cs =>
    match get_commit_revoke_secret_hash c.script with
    | .error e => .error e
    | .ok h =>
      if secret_hash = h then .ok (some c) else revoke_scan secret_hash cs

/-- `revoke(secret)` from `base.py`: compute `hash160hex(secret)`; scan
`commits_active` for a matching entry; on a match remove it from the active
list, store the secret on the entry, append it to `commits_revoked` and
return a (deep copy of) the entry; with no match return `None` and leave the
state unchanged. -/
def revoke (h160 : List Nat → List Nat) (ch : Channel) (secret : List Nat) :
    Except ScriptErr (Option CommitEntry × Channel) :=
  match revoke_scan (h160 secret) ch.commits_active with
  | .error e => .error e
  | .ok none => .ok (none, ch)
  | .ok (some commit) =>
    .ok (some { commit with revoke_secret := some secret },
      { ch with
          commits_active := ch.commits_active.erase commit,
          commits_revoked :=
            ch.commits_revoked ++ [{ commit with revoke_secret := some secret }] })

/-- An active entry "matches" a revoke-secret hash when extracting the
embedded revoke-secret hash from its script succeeds and returns that
hash — the comparison `revoke` performs. -/
def entry_matches (secret_hash : List Nat) (c : CommitEntry) : Prop :=
  get_commit_revoke_secret_hash c.script = .ok secret_hash

instance (secret_hash : List Nat) (c : CommitEntry) :
    Decidable (entry_matches secret_hash c) := by
  unfold entry_matches
  infer_instance

/-! ## Channel lemmas -/

/-- Whatever `revoke` returns successfully, the resulting active list is the
original one or the original one with one entry erased. -/
theorem revoke_ok_active_shape (h160 : List Nat → List Nat) (ch : Channel)
    (secret : List Nat) (out : Option CommitEntry × Channel)
    (h : revoke h160 ch secret = .ok out) :
    out.2.commits_active = ch.commits_active ∨
      ∃ c, out.2.commits_active = ch.commits_active.erase c := by
  unfold revoke at h
  cases hscan : revoke_scan (h160 secret) ch.commits_active with
  | error e => rw [hscan] at h; exact absurd h (by simp)
  | ok res =>
    rw [hscan] at h
    cases res with
    | none =>
      left
      cases h
      rfl
    | some commit =>
      right
      refine ⟨commit, ?_⟩
      cases h
      rfl

/-- In a quantity-sorted list the last entry's quantity bounds every
entry's quantity. -/
theorem sorted_getLast_ge (q : Nat → Nat) :
    ∀ (l : List CommitEntry) (hne : l ≠ []), List.Sorted (qle q) l →
      ∀ x ∈ l, qle q x (l.getLast hne) := by
  intro l
  induction l with
  | nil => intro hne; exact absurd rfl hne
  | cons a t ih =>
    intro _ hsort x hx
    rcases List.sorted_cons.mp hsort with ⟨ha, ht⟩
    cases t with
    | nil =>
      have : x = a := by simpa using hx
      subst this
      exact Nat.le_refl _
    | cons b t2 =>
      rw [List.getLast_cons (by simp : b :: t2 ≠ [])]
      rcases List.mem_cons.mp hx with hxa | hxt
      · subst hxa
        exact Nat.le_trans (ha b (by simp))
          (ih (by simp) ht b (by simp))
      · exact ih (by simp) ht x hxt

/-- The value `get_transferred_amount` returns on a non-empty channel is the
quantity of some active commitment, and it bounds every active commitment's
quantity. -/
theorem transferred_amount_spec (q : Nat → Nat) (ch : Channel)
    (hne : ch.commits_active ≠ []) :
    ∃ c, c ∈ ch.commits_active ∧ (get_transferred_amount q ch).1 = q c.rawtx ∧
      ∀ b ∈ ch.commits_active, q b.rawtx ≤ q c.rawtx := by
  have hsortne : ch.commits_active.insertionSort (qle q) ≠ [] := by
    intro h
    have := List.length_insertionSort (qle q) ch.commits_active
    rw [h] at this
    exact hne (List.length_eq_zero.mp this.symm)
  have hlast := List.getLast?_eq_getLast _ hsortne
  refine ⟨(ch.commits_active.insertionSort (qle q)).getLast hsortne, ?_, ?_, ?_⟩
  · exact (List.mem_insertionSort (qle q)).mp (List.getLast_mem hsortne)
  · unfold get_transferred_amount _order_active
    rw [if_neg hne]
    simp only [hlast]
  · intro b hb
    exact sorted_getLast_ge q _ hsortne (List.sorted_insertionSort (qle q) _) b
      ((List.mem_insertionSort (qle q)).mpr hb)

/-- Successful extraction produces some hash. -/
theorem extraction_ok_exists (c : CommitEntry)
    (h : (get_commit_revoke_secret_hash c.script).isOk = true) :
    ∃ v, get_commit_revoke_secret_hash c.script = .ok v := by
  cases hget : get_commit_revoke_secret_hash c.script with
  | error e => rw [hget] at h; simp [Except.isOk, Except.toBool] at h
  | ok v => exact ⟨v, rfl⟩

/-- A scan over entries none of which matches the hash (and all of whose
scripts decode) finds nothing. -/
theorem revoke_scan_no_match (sh : List Nat) :
    ∀ l : List CommitEntry,
      (∀ c ∈ l, (get_commit_revoke_secret_hash c.script).isOk = true) →
      (∀ c ∈ l, ¬ entry_matches sh c) →
      revoke_scan sh l = .ok none := by
  intro l
  induction l with
  | nil => intro _ _; rfl
  | cons a t ih =>
    intro hwf hnm
    obtain ⟨h, hex⟩ := extraction_ok_exists a (hwf a (by simp))
    have hne : ¬(sh = h) := by
      intro hcontra
      refine hnm a (by simp) ?_
      show get_commit_revoke_secret_hash a.script = .ok sh
      rw [hcontra]
      exact hex
    simp only [revoke_scan, hex]
    rw [if_neg hne]
    exact ih (fun c hc => hwf c (by simp [hc])) (fun c hc => hnm c (by simp [hc]))

/-- A scan finds the first matching entry: entries before it do not match
(and their scripts decode), the entry itself matches. -/
theorem revoke_scan_found (sh : List Nat) (c : CommitEntry)
    (hc : entry_matches sh c) :
    ∀ pre post : List CommitEntry,
      (∀ b ∈ pre, (get_commit_revoke_secret_hash b.script).isOk = true) →
      (∀ b ∈ pre, ¬ entry_matches sh b) →
      revoke_scan sh (pre ++ c :: post) = .ok (some c) := by
  intro pre
  induction pre with
  | nil =>
    intro post _ _
    have hcm : get_commit_revoke_secret_hash c.script = .ok sh := hc
    simp only [List.nil_append, revoke_scan, hcm]
    simp
  | cons a t ih =>
    intro post hwf hnm
    obtain ⟨h, hex⟩ := extraction_ok_exists a (hwf a (by simp))
    have hne : ¬(sh = h) := by
      intro hcontra
      refine hnm a (by simp) ?_
      show get_commit_revoke_secret_hash a.script = .ok sh
      rw [hcontra]
      exact hex
    simp only [List.cons_append, revoke_scan, hex]
    rw [if_neg hne]
    exact ih post (fun b hb => hwf b (by simp [hb])) (fun b hb => hnm b (by simp [hb]))

/-! ## Claim C4: the sortedness invariant of `commits_active` -/

/-- C4: `commits_active` is sorted ascending by oracle quantity immediately
after `load`, after `save` (both in the returned snapshot and in the
post-call state), after `clear`, and after any successful `revoke` from a
sorted state — sortedness is re-established or preserved by every public
operation. -/
theorem C4_commits_active_always_sorted (q : Nat → Nat) (h160 : List Nat → List Nat)
    (s ch : Channel) (secret : List Nat) :
    List.Sorted (qle q) (load q s).commits_active
    ∧ List.Sorted (qle q) (save q ch).1.commits_active
    ∧ List.Sorted (qle q) (save q ch).2.commits_active
    ∧ List.Sorted (qle q) clear.commits_active
    ∧ (List.Sorted (qle q) ch.commits_active →
        ∀ out, revoke h160 ch secret = .ok out →
          List.Sorted (qle q) out.2.commits_active) := by
  refine ⟨List.sorted_insertionSort (qle q) _, List.sorted_insertionSort (qle q) _,
    List.sorted_insertionSort (qle q) _, List.sorted_nil, ?_⟩
  intro hsort out hrev
  rcases revoke_ok_active_shape h160 ch secret out hrev with heq | ⟨c, heq⟩
  · rw [heq]; exact hsort
  · rw [heq]
    exact hsort.sublist (ch.commits_active.erase_sublist c)

/-- Witness for C4: a channel whose active list is loaded out of order, and a
successful `revoke` on a sorted two-entry channel. -/
theorem C4_commits_active_always_sorted_witness :
    List.Sorted (qle (fun n => n))
      ((load (fun n => n)
        { clear with commits_active :=
            [⟨5, [], none⟩, ⟨3, [], none⟩, ⟨4, [], none⟩] }).commits_active)
    ∧ List.Sorted (qle (fun n => n))
      ((save (fun n => n)
        { clear with commits_active := [⟨2, [], none⟩, ⟨1, [], none⟩] }).1.commits_active) := by
  have h₁ := C4_commits_active_always_sorted (fun n => n) (fun x => x)
    { clear with commits_active := [⟨5, [], none⟩, ⟨3, [], none⟩, ⟨4, [], none⟩] }
    { clear with commits_active := [⟨2, [], none⟩, ⟨1, [], none⟩] } []
  exact ⟨h₁.1, h₁.2.1⟩

/-! ## Claim C5: `get_transferred_amount` -/

/-- C5: `get_transferred_amount()` returns 0 whenever `commits_active` is
empty; otherwise it returns the oracle quantity of a highest-quantity active
commitment; and the returned value is the same for every permutation of the
active commitments (hence of the order in which they were inserted). -/
theorem C5_get_transferred_amount (q : Nat → Nat) (ch ch₂ : Channel) :
    (ch.commits_active = [] → (get_transferred_amount q ch).1 = 0)
    ∧ (ch.commits_active ≠ [] →
        ∃ c, c ∈ ch.commits_active ∧ (get_transferred_amount q ch).1 = q c.rawtx ∧
          ∀ b ∈ ch.commits_active, q b.rawtx ≤ q c.rawtx)
    ∧ (ch₂.commits_active.Perm ch.commits_active →
        (get_transferred_amount q ch₂).1 = (get_transferred_amount q ch).1) := by
  refine ⟨?_, transferred_amount_spec q ch, ?_⟩
  · intro h
    unfold get_transferred_amount
    rw [if_pos h]
  · intro hperm
    by_cases hne : ch.commits_active = []
    · have hne₂ : ch₂.commits_active = [] := by
        rw [hne] at hperm
        exact List.Perm.eq_nil hperm
      unfold get_transferred_amount
      rw [if_pos hne, if_pos hne₂]
    · have hne₂ : ch₂.commits_active ≠ [] := by
        intro h
        rw [h] at hperm
        exact hne hperm.symm.eq_nil
      rcases transferred_amount_spec q ch hne with ⟨c, hc_mem, hc_val, hc_max⟩
      rcases transferred_amount_spec q ch₂ hne₂ with ⟨d, hd_mem, hd_val, hd_max⟩
      rw [hc_val, hd_val]
      exact Nat.le_antisymm
        (hd_max d hd_mem |> fun _ => hc_max d (hperm.mem_iff.mp hd_mem))
        (hd_max c (hperm.mem_iff.mpr hc_mem))

/-- Witness for C5: an empty channel and a three-entry channel in two
insertion orders. -/
theorem C5_get_transferred_amount_witness :
    (get_transferred_amount (fun n => n) clear).1 = 0
    ∧ (∃ c, c ∈ ({ clear with commits_active :=
          [⟨7, [], none⟩, ⟨2, [], none⟩, ⟨5, [], none⟩] } : Channel).commits_active ∧
        (get_transferred_amount (fun n => n)
          { clear with commits_active :=
            [⟨7, [], none⟩, ⟨2, [], none⟩, ⟨5, [], none⟩] }).1 = (fun n => n) c.rawtx ∧
        ∀ b ∈ ({ clear with commits_active :=
            [⟨7, [], none⟩, ⟨2, [], none⟩, ⟨5, [], none⟩] } : Channel).commits_active,
          (fun n => n) b.rawtx ≤ (fun n => n) c.rawtx)
    ∧ (get_transferred_amount (fun n => n)
        { clear with commits_active := [⟨2, [], none⟩, ⟨5, [], none⟩, ⟨7, [], none⟩] }).1 =
      (get_transferred_amount (fun n => n)
        { clear with commits_active := [⟨7, [], none⟩, ⟨2, [], none⟩, ⟨5, [], none⟩] }).1 := by
  have h₁ := C5_get_transferred_amount (fun n => n) clear clear
  have h₂ := C5_get_transferred_amount (fun n => n)
    { clear with commits_active := [⟨7, [], none⟩, ⟨2, [], none⟩, ⟨5, [], none⟩] }
    { clear with commits_active := [⟨2, [], none⟩, ⟨5, [], none⟩, ⟨7, [], none⟩] }
  exact ⟨h₁.1 rfl, h₂.2.1 (by decide), h₂.2.2 (by decide)⟩

/-! ## Claim C10: save/load round trip -/

/-- C10: for every snapshot whose `commits_active` is already sorted
ascending by quantity, `load` then `save` returns that snapshot unchanged;
and for every channel state, `load(save())` reproduces exactly the state the
`save` call left behind (the save itself re-sorts `commits_active` in
place). -/
theorem C10_save_load_round_trip (q : Nat → Nat) (s ch : Channel) :
    (List.Sorted (qle q) s.commits_active → (save q (load q s)).1 = s)
    ∧ load q (save q ch).1 = (save q ch).2 := by
  constructor
  · intro hs
    show _order_active q (_order_active q s) = s
    unfold _order_active
    simp [hs.insertionSort_eq]
  · show _order_active q (_order_active q ch) = _order_active q ch
    unfold _order_active
    simp [(List.sorted_insertionSort (qle q) ch.commits_active).insertionSort_eq]

/-- Witness for C10: a sorted two-entry snapshot survives `load` then `save`
bit-for-bit, and `load(save())` is the post-save state on an unsorted
channel. -/
theorem C10_save_load_round_trip_witness :
    (save (fun n => n) (load (fun n => n)
      { clear with commits_active := [⟨1, [], none⟩, ⟨2, [], none⟩] })).1 =
      { clear with commits_active := [⟨1, [], none⟩, ⟨2, [], none⟩] }
    ∧ load (fun n => n)
        (save (fun n => n)
          { clear with commits_active := [⟨2, [], none⟩, ⟨1, [], none⟩] }).1 =
      (save (fun n => n)
        { clear with commits_active := [⟨2, [], none⟩, ⟨1, [], none⟩] }).2 := by
  have h := C10_save_load_round_trip (fun n => n)
    { clear with commits_active := [⟨1, [], none⟩, ⟨2, [], none⟩] }
    { clear with commits_active := [⟨2, [], none⟩, ⟨1, [], none⟩] }
  exact ⟨h.1 (by decide), h.2⟩

/-! ## Claim C2: `_validate_transfer_quantity` -/

/-- C2 (code bug): on a channel with no active commitments (transferred
amount 0) and a deposit of quantity 1000, asking to transfer 1001 — which
exceeds the deposit total — raises `AttributeError` (from the `msg.fromat`
misspelling at the `quantity > total` raise site in `base.py`) instead of
the InvalidTransferQuantity `ValueError` the claim and the parallel branch
intend.  The `quantity <= transferred` rejection and the acceptance of
`transferred < quantity <= total` behave as claimed. -/
theorem C2_validate_transfer_quantity_code_bug :
    _validate_transfer_quantity (fun _ => 1000) { clear with deposit_rawtx := some 1 } 1001 =
      .error ChannelErr.attributeErrorFromat
    ∧ ChannelErr.attributeErrorFromat ≠ ChannelErr.invalidTransferQuantity
    ∧ _validate_transfer_quantity (fun _ => 1000) { clear with deposit_rawtx := some 1 } 0 =
      .error ChannelErr.invalidTransferQuantity
    ∧ _validate_transfer_quantity (fun _ => 1000) { clear with deposit_rawtx := some 1 } 500 =
      .ok { clear with deposit_rawtx := some 1 } := by
  decide

/-! ## Claim C6: revocation moves the matching entry, or returns absent -/

/-- C6: `revoke(secret)` hashes the secret and scans `commits_active`.  If no
active entry's script embeds that hash, the result is absent and the state
is unchanged (no error).  If the first matching entry is `c`, the result is
a copy of `c` with the secret stored, the state removes exactly `c` from the
active list and appends that same updated entry to `commits_revoked` (a
move, never a copy — the active multiset loses exactly `c`), and revoking
the same secret again from the resulting state (when no other active entry
matches) yields an absent result with the state unchanged. -/
theorem C6_revoke_move_or_absent (h160 : List Nat → List Nat) (secret : List Nat)
    (ch : Channel)
    (hwf : ∀ c ∈ ch.commits_active, (get_commit_revoke_secret_hash c.script).isOk = true) :
    ((∀ c ∈ ch.commits_active, ¬ entry_matches (h160 secret) c) →
      revoke h160 ch secret = .ok (none, ch))
    ∧ (∀ pre c post, ch.commits_active = pre ++ c :: post →
        (∀ b ∈ pre, ¬ entry_matches (h160 secret) b) →
        entry_matches (h160 secret) c →
        revoke h160 ch secret =
          .ok (some { c with revoke_secret := some secret },
            { ch with
                commits_active := pre ++ post,
                commits_revoked :=
                  ch.commits_revoked ++ [{ c with revoke_secret := some secret }] })
        ∧ (c :: (pre ++ post)).Perm ch.commits_active
        ∧ ((∀ b ∈ post, ¬ entry_matches (h160 secret) b) →
            revoke h160
              { ch with
                  commits_active := pre ++ post,
                  commits_revoked :=
                    ch.commits_revoked ++ [{ c with revoke_secret := some secret }] }
              secret =
            .ok (none,
              { ch with
                  commits_active := pre ++ post,
                  commits_revoked :=
                    ch.commits_revoked ++ [{ c with revoke_secret := some secret }] }))) := by
  constructor
  · intro hnm
    unfold revoke
    rw [revoke_scan_no_match _ _ hwf hnm]
  · intro pre c post hactive hnm hc
    have hwf_pre : ∀ b ∈ pre, (get_commit_revoke_secret_hash b.script).isOk = true :=
      fun b hb => hwf b (by rw [hactive]; simp [hb])
    have hc_not_pre : c ∉ pre := fun hmem => hnm c hmem hc
    refine ⟨?_, ?_, ?_⟩
    · unfold revoke
      rw [hactive, revoke_scan_found _ c hc pre post hwf_pre hnm]
      dsimp only
      rw [List.erase_append_right _ hc_not_pre, List.erase_cons_head]
    · rw [hactive]
      exact List.perm_middle.symm
    · intro hpost
      have hwf2 : ∀ b ∈ pre ++ post,
          (get_commit_revoke_secret_hash b.script).isOk = true := by
        intro b hb
        rcases List.mem_append.mp hb with h | h
        · exact hwf_pre b h
        · exact hwf b (by rw [hactive]; simp [h])
      have hnm2 : ∀ b ∈ pre ++ post, ¬ entry_matches (h160 secret) b := by
        intro b hb
        rcases List.mem_append.mp hb with h | h
        · exact hnm b h
        · exact hpost b h
      unfold revoke
      rw [show ({ ch with
          commits_active := pre ++ post,
          commits_revoked :=
            ch.commits_revoked ++ [{ c with revoke_secret := some secret }] } :
          Channel).commits_active = pre ++ post from rfl,
        revoke_scan_no_match _ _ hwf2 hnm2]

/-- Payer public key used by the concrete witness scripts. -/
def wit_payer_pubkey : List Nat := List.replicate 33 1

/-- Payee public key used by the concrete witness scripts. -/
def wit_payee_pubkey : List Nat := List.replicate 33 2

/-- Spend-secret hash used by the concrete witness scripts. -/
def wit_spend_hash : List Nat := List.replicate 20 3

/-- Revoke secret of the first witness commitment (the identity stands in
for hash160, so the embedded hash equals the secret). -/
def wit_secret_1 : List Nat := List.replicate 20 4

/-- Revoke secret of the second witness commitment. -/
def wit_secret_2 : List Nat := List.replicate 20 5

/-- Commit script of the first witness commitment. -/
def wit_script_1 : List Nat :=
  compile_commit_script wit_payer_pubkey wit_payee_pubkey wit_spend_hash wit_secret_1 6

/-- Commit script of the second witness commitment. -/
def wit_script_2 : List Nat :=
  compile_commit_script wit_payer_pubkey wit_payee_pubkey wit_spend_hash wit_secret_2 6

/-- First witness commitment (quantity 300 under the identity oracle). -/
def wit_entry_1 : CommitEntry := ⟨300, wit_script_1, none⟩

/-- Second witness commitment (quantity 700 under the identity oracle). -/
def wit_entry_2 : CommitEntry := ⟨700, wit_script_2, none⟩

/-- Witness for C6: revoking a matching secret moves the sole active entry
to `commits_revoked` with the secret stored; revoking it a second time
returns an absent result and leaves the state alone. -/
theorem C6_revoke_move_or_absent_witness :
    revoke (fun s => s) { clear with commits_active := [wit_entry_1] } wit_secret_1 =
      .ok (some { wit_entry_1 with revoke_secret := some wit_secret_1 },
        { clear with
            commits_active := [],
            commits_revoked := [{ wit_entry_1 with revoke_secret := some wit_secret_1 }] })
    ∧ revoke (fun s => s)
        { clear with
            commits_active := [],
            commits_revoked := [{ wit_entry_1 with revoke_secret := some wit_secret_1 }] }
        wit_secret_1 =
      .ok (none,
        { clear with
            commits_active := [],
            commits_revoked := [{ wit_entry_1 with revoke_secret := some wit_secret_1 }] }) := by
  have h := C6_revoke_move_or_absent (fun s => s) wit_secret_1
    { clear with commits_active := [wit_entry_1] } (by decide)
  have hb := h.2 [] wit_entry_1 [] rfl (by simp) (by decide)
  exact ⟨hb.1, hb.2.2 (by simp)⟩

/-! ## Claim C7: only the currently active commitment's secret is revocable -/

/-- C7: when a commitment has been superseded and moved out of the active
list (it sits in `commits_revoked`), revoking its secret returns an absent
result: its hash matches no active entry, so the scan over `commits_active`
finds nothing and the state is unchanged. -/
theorem C7_superseded_secret_not_revocable (h160 : List Nat → List Nat)
    (secret : List Nat) (e_old : CommitEntry) (ch : Channel)
    (hwf : ∀ c ∈ ch.commits_active, (get_commit_revoke_secret_hash c.script).isOk = true)
    (h_superseded : e_old ∈ ch.commits_revoked)
    (h_old_matches : entry_matches (h160 secret) e_old)
    (h_not_active : ∀ c ∈ ch.commits_active, ¬ entry_matches (h160 secret) c) :
    revoke h160 ch secret = .ok (none, ch) := by
  unfold revoke
  rw [revoke_scan_no_match _ _ hwf h_not_active]

/-- Witness for C7: the 300-quantity commitment has been superseded by the
700-quantity one and already revoked; probing `revoke` with its secret
returns absent and changes nothing. -/
theorem C7_superseded_secret_not_revocable_witness :
    revoke (fun s => s)
      { clear with
          commits_active := [wit_entry_2],
          commits_revoked := [{ wit_entry_1 with revoke_secret := some wit_secret_1 }] }
      wit_secret_1 =
    .ok (none,
      { clear with
          commits_active := [wit_entry_2],
          commits_revoked := [{ wit_entry_1 with revoke_secret := some wit_secret_1 }] }) := by
  exact C7_superseded_secret_not_revocable (fun s => s) wit_secret_1
    { wit_entry_1 with revoke_secret := some wit_secret_1 }
    { clear with
        commits_active := [wit_entry_2],
        commits_revoked := [{ wit_entry_1 with revoke_secret := some wit_secret_1 }] }
    (by decide) (by decide) (by decide) (by decide)

/-! ## Claim C8: `solve_finalize_commit` (`scripts.py`)

The cryptographic primitives are external (pycoin `encoding` and `ecdsa`)
and enter as function parameters:
`sec_to_public_pair` (None models `EncodingError`), `parse_signature_blob`
(None models `UnexpectedDER`), `ecdsa_verify`, `_create_script_signature`
and the caller-supplied `hash160_lookup` keyed by `hash160(sec)`. -/

/-- Errors raised by `solve_finalize_commit`, by raise site. -/
inductive SolveErr where
  /-- reading past the end of `existing_script` in `get_opcode`. -/
  | scriptTruncated
  /-- the first `parse_signature_blob` call sits outside the `try`, so a
  malformed blob propagates `UnexpectedDER` directly. -/
  | unexpectedDER
  /-- `Exception("Invalid payer public_pair!")` — raised both when the
  payer signature fails to verify and when decoding the payer key or
  re-parsing the blob fails inside the `try`; the spec's
  SignatureVerificationFailure kind. -/
  | signatureVerificationFailure
  /-- `hash160_lookup.get(...)` returned nothing and the unpacking fails. -/
  | lookupFailure
deriving DecidableEq, Repr

/-- `solve_finalize_commit(**kwargs)` from `scripts.py`: read the leading
OP_0 and the payer-signature push from the existing witness script; parse
the signature blob; verify the payer's signature against the payer's public
key and the supplied signing hash (fatal if invalid); then sign the same
hash with the payee's key — with the signature type the blob carried, which
shadows the `signature_type` keyword — and assemble
`OP_0 {payer_sig} {payee_sig} OP_1`. -/
def solve_finalize_commit
    (sec_to_public_pair : List Nat → Option Nat)
    (parse_signature_blob : List Nat → Option (Nat × Nat))
    (ecdsa_verify : Nat → Nat → Nat → Bool)
    (create_script_signature : Nat → Nat → Nat → List Nat)
    (hash160 : List Nat → List Nat)
    (hash160_lookup : List Nat → Option (Nat × Nat × Bool))
    (payer_sec payee_sec : List Nat)
    (sign_value : Nat) (_signature_type : Nat) (existing_script : List Nat) :
    Except SolveErr (List Nat) :=
  match get_opcode existing_script with
  | none => .error .scriptTruncated
  | some (_op0, _d0, rest) =>
    match get_opcode rest with
    | none => .error .scriptTruncated
    | some (_op1, payer_sig, _rest2) =>
      match parse_signature_blob payer_sig with
      | none => .error .unexpectedDER
      | some _ =>
        match sec_to_public_pair payer_sec with
        | none => .error .signatureVerificationFailure
        | some public_pair =>
          match parse_signature_blob payer_sig with
          | none => .error .signatureVerificationFailure
          | some (sig_pair, signature_type) =>
            if ecdsa_verify public_pair sign_value sig_pair = false then
              .error .signatureVerificationFailure
            else
              match hash160_lookup (hash160 payee_sec) with
              | none => .error .lookupFailure
              | some (secret_exponent, _pp, _compressed) =>
                .ok ([0] ++ bin_script payer_sig ++
                  bin_script (create_script_signature secret_exponent sign_value
                    signature_type) ++ [81])

/-- C8: given a witness of the `create_commit` shape
(`OP_0 {payer_sig} …`) and the transaction's signature hash,
`solve_finalize_commit` first verifies the extracted payer signature against
the payer's public key and that hash; whenever that verification fails (even
on a well-formed witness) the call fails with the
SignatureVerificationFailure error and produces no counter-signed witness;
when it succeeds, the result is the witness with the payee's signature over
the same hash in the placeholder's position. -/
theorem C8_finalize_commit_verifies_payer_signature
    (sec_to_public_pair : List Nat → Option Nat)
    (parse_signature_blob : List Nat → Option (Nat × Nat))
    (ecdsa_verify : Nat → Nat → Nat → Bool)
    (create_script_signature : Nat → Nat → Nat → List Nat)
    (hash160 : List Nat → List Nat)
    (hash160_lookup : List Nat → Option (Nat × Nat × Bool))
    (payer_sec payee_sec payer_sig rest2 : List Nat)
    (sign_value signature_type sig_pair st public_pair secret_exponent pp2 : Nat)
    (compressed : Bool)
    (hpsne : payer_sig ≠ []) (hps75 : payer_sig.length ≤ 75)
    (hblob : parse_signature_blob payer_sig = some (sig_pair, st))
    (hsec : sec_to_public_pair payer_sec = some public_pair)
    (hlook : hash160_lookup (hash160 payee_sec) = some (secret_exponent, pp2, compressed)) :
    (ecdsa_verify public_pair sign_value sig_pair = false →
      solve_finalize_commit sec_to_public_pair parse_signature_blob ecdsa_verify
        create_script_signature hash160 hash160_lookup payer_sec payee_sec
        sign_value signature_type ([0] ++ bin_script payer_sig ++ rest2) =
        .error .signatureVerificationFailure)
    ∧ (ecdsa_verify public_pair sign_value sig_pair = true →
      solve_finalize_commit sec_to_public_pair parse_signature_blob ecdsa_verify
        create_script_signature hash160 hash160_lookup payer_sec payee_sec
        sign_value signature_type ([0] ++ bin_script payer_sig ++ rest2) =
        .ok ([0] ++ bin_script payer_sig ++
          bin_script (create_script_signature secret_exponent sign_value st) ++ [81])) := by
  have hshape : ([0] ++ bin_script payer_sig ++ rest2) =
      0 :: (bin_script payer_sig ++ rest2) := by simp
  have h0 : get_opcode ([0] ++ bin_script payer_sig ++ rest2) =
      some (0, [], bin_script payer_sig ++ rest2) := by
    rw [hshape]; exact get_opcode_zero_op _
  have h1 : get_opcode (bin_script payer_sig ++ rest2) =
      some (payer_sig.length, payer_sig, rest2) :=
    get_opcode_push payer_sig rest2 hpsne hps75
  constructor
  · intro hfail
    unfold solve_finalize_commit
    simp only [h0, h1, hblob, hsec, hfail]
    simp
  · intro hok
    unfold solve_finalize_commit
    simp only [h0, h1, hblob, hsec, hok, hlook]
    simp

/-- Witness for C8: concrete stand-ins for the cryptographic primitives
under which the payer signature fails to verify, so finalization rejects the
witness. -/
theorem C8_finalize_commit_verifies_payer_signature_witness :
    solve_finalize_commit (fun _ => some 9) (fun _ => some (7, 1)) (fun _ _ _ => false)
      (fun a b c => [a + b + c]) (fun s => s) (fun _ => some (3, 9, true))
      (List.replicate 33 1) (List.replicate 33 2) 5 1 ([0] ++ bin_script [1] ++ [81]) =
      .error .signatureVerificationFailure := by
  exact (C8_finalize_commit_verifies_payer_signature (fun _ => some 9)
    (fun _ => some (7, 1)) (fun _ _ _ => false) (fun a b c => [a + b + c]) (fun s => s)
    (fun _ => some (3, 9, true)) (List.replicate 33 1) (List.replicate 33 2) [1] [81]
    5 1 7 1 9 3 9 true (by decide) (by decide) rfl rfl rfl).1 rfl

/-! ## Claim C9: instance containers (`channel/base.py` class body)

In `base.py` the three commitment containers `commits_requested`,
`commits_active` and `commits_revoked` are initialised by list literals in
the class body of `Base`, and `__init__` never rebinds them on the instance.
Python attribute lookup falls back from the (empty) instance dictionary to
the class attribute, so every fresh instance resolves the three names to the
same three class-level list objects, and an in-place mutation made through
one instance is visible through every other. -/

/-- The class-level attributes of `Base` holding the three containers. -/
structure BaseClassAttrs where
  commits_requested : List (List Nat)
  commits_active : List CommitEntry
  commits_revoked : List CommitEntry
deriving DecidableEq, Repr

/-- The instance-level attribute dictionary for the three container names:
`none` means the instance never rebound the name and lookup falls back to
the class attribute. -/
structure InstanceAttrs where
  commits_requested : Option (List (List Nat))
  commits_active : Option (List CommitEntry)
  commits_revoked : Option (List CommitEntry)
deriving DecidableEq, Repr

/-- The class body of `Base`: the three containers are empty list
literals. -/
def base_class_attrs : BaseClassAttrs :=
  { commits_requested := [], commits_active := [], commits_revoked := [] }

/-- `Base.__init__` assigns `self.control` and `self.mutex` but none of the
three container attributes, so a fresh instance has an empty instance
dictionary for them. -/
def fresh_instance : InstanceAttrs :=
  { commits_requested := none, commits_active := none, commits_revoked := none }

/-- Python attribute lookup for `self.commits_requested`: instance
dictionary first, class attribute otherwise. -/
def read_commits_requested (cls : BaseClassAttrs) (inst : InstanceAttrs) :
    List (List Nat) :=
  inst.commits_requested.getD cls.commits_requested

/-- Modelled from the spec: the payee-side request operation — outside
`src/`, described by the spec as accumulating revocation-secret identifiers
in `commits_requested` — performs `self.commits_requested.append(x)`. The
append mutates in place whichever list object attribute lookup resolves:
the instance's own list if the name was ever rebound, otherwise the shared
class-level list. -/
def request_commit (cls : BaseClassAttrs) (inst : InstanceAttrs) (rs : List Nat) :
    BaseClassAttrs × InstanceAttrs :=
  match inst.commits_requested with
  | some l => (cls, { inst with commits_requested := some (l ++ [rs]) })
  | none => ({ cls with commits_requested := cls.commits_requested ++ [rs] }, inst)

/-- C9 (code bug): two freshly constructed instances A and B (both with
empty instance dictionaries) resolve `commits_requested` to the single
class-level list.  Appending one request through A leaves A's instance
dictionary empty and mutates the class attribute, so reading through the
untouched fresh instance B observes A's mutation — the containers are
shared, not independently allocated. -/
theorem C9_class_level_containers_shared :
    read_commits_requested base_class_attrs fresh_instance = []
    ∧ (request_commit base_class_attrs fresh_instance [7]).2 = fresh_instance
    ∧ read_commits_requested (request_commit base_class_attrs fresh_instance [7]).1
        fresh_instance = [[7]]
    ∧ read_commits_requested (request_commit base_class_attrs fresh_instance [7]).1
        fresh_instance ≠ read_commits_requested base_class_attrs fresh_instance := by
  decide

end Picopayments
